import Mathlib

/-!
Verification of the Forza-Meet multi-party WebRTC session manager
(`useWebRTC(username, roomId)` hook: `createPeerConnection`, `startCall`,
`handleMessage`, `toggleAudio`/`toggleVideo`, `hangUp`) and of the
pre-join presence probe `checkRoomPresence` of the landing page.

The embedding models the session's mutable refs and React state as one
record `SessionState`; `RTCPeerConnection` objects are allocated in a
store (`pcs : List RTCPeerConnection`, object identity = list index) so
that object creation, replacement and orphaning are observable, exactly
as distinct `new RTCPeerConnection(...)` objects are distinct in the
source.  SDP payloads and ICE candidates are opaque (`Nat`).  The
platform behaviour of `RTCPeerConnection.addIceCandidate` is modelled
after the WebRTC API the source calls: adding a candidate succeeds and
records it when a remote description is set and the connection is not
closed, and otherwise rejects (the source catches and logs the
rejection, dropping the candidate).
-/

namespace ForzaMeet

/-- Browser-level connection states of an `RTCPeerConnection`
(`pc.connectionState`). -/
inductive PcConnState
  | new
  | connecting
  | connected
  | disconnected
  | failed
  | closed
deriving DecidableEq, Repr

/-- Aggregate session connection state
(`type ConnectionState = "disconnected" | "connecting" | "connected"`). -/
inductive ConnState
  | disconnected
  | connecting
  | connected
deriving DecidableEq, Repr

/-- An `RTCPeerConnection` object as the session observes it: the local
and remote description slots, the list of ICE candidates successfully
applied (in order of application), the closed flag, and the browser
connection state driving `onconnectionstatechange`. -/
structure RTCPeerConnection where
  localDescSet : Bool
  remoteDescSet : Bool
  applied : List Nat
  closed : Bool
  connState : PcConnState
deriving DecidableEq, Repr

/-- The pc object returned by `new RTCPeerConnection(configuration)`. -/
def newPc : RTCPeerConnection :=
  { localDescSet := false, remoteDescSet := false, applied := [],
    closed := false, connState := PcConnState.new }

/-- A local media track (`MediaStreamTrack`): kind, enabled flag,
stopped flag. -/
structure MediaTrack where
  audio : Bool
  enabled : Bool
  stopped : Bool
deriving DecidableEq, Repr

/-- One entry of the `remoteParticipants` React state. -/
structure RemoteParticipant where
  peerId : String
  username : String
  stream : Option Nat
  audioEnabled : Bool
  videoEnabled : Bool
deriving DecidableEq, Repr

/-- The six signaling message variants (`SignalMessage`). -/
inductive SignalMessage
  | join (senderId : String) (username : String)
  | leave (senderId : String)
  | offer (senderId : String) (targetId : String) (sdp : Nat) (username : String)
  | answer (senderId : String) (targetId : String) (sdp : Nat)
  | iceCandidate (senderId : String) (targetId : String) (candidate : Nat)
  | state (senderId : String) (audioEnabled : Bool) (videoEnabled : Bool)
deriving DecidableEq, Repr

/-- Anything that can arrive on the room's `BroadcastChannel`: a
`SignalMessage`, the landing page's presence probe messages, or a
message of any other unknown type.  Every variant carries a senderId
field, as every message posted in the repository does. -/
inductive WireMessage
  | signal (m : SignalMessage)
  | presenceRequest (senderId : String)
  | presenceResponse (senderId : String)
  | other (tag : String) (senderId : String)
deriving DecidableEq, Repr

/-- The senderId field of a wire message. -/
def senderOf : WireMessage → String
  | WireMessage.signal (SignalMessage.join s _) => s
  | WireMessage.signal (SignalMessage.leave s) => s
  | WireMessage.signal (SignalMessage.offer s _ _ _) => s
  | WireMessage.signal (SignalMessage.answer s _ _) => s
  | WireMessage.signal (SignalMessage.iceCandidate s _ _) => s
  | WireMessage.signal (SignalMessage.state s _ _) => s
  | WireMessage.presenceRequest s => s
  | WireMessage.presenceResponse s => s
  | WireMessage.other _ s => s

/-- The targetId field of a point-to-point message
(offer/answer/ice-candidate); `none` for broadcast messages. -/
def targetOf : WireMessage → Option String
  | WireMessage.signal (SignalMessage.offer _ t _ _) => some t
  | WireMessage.signal (SignalMessage.answer _ t _) => some t
  | WireMessage.signal (SignalMessage.iceCandidate _ t _) => some t
  | _ => none

/-- Is this one of the six `SignalMessage` variants? -/
def isSignal : WireMessage → Bool
  | WireMessage.signal _ => true
  | _ => false

/-- Is this a presence-response message? -/
def isPresenceResponse : WireMessage → Bool
  | WireMessage.presenceResponse _ => true
  | _ => false

/-- JavaScript `Map.get`. -/
def getEntry {α : Type} (m : List (String × α)) (k : String) : Option α :=
  (m.find? (fun e => e.1 = k)).map (fun e => e.2)

/-- JavaScript `Map.set`: replace in place (preserving insertion order)
when the key exists, append otherwise. -/
def setEntry {α : Type} (m : List (String × α)) (k : String) (v : α) :
    List (String × α) :=
  if m.any (fun e => e.1 = k) then
    m.map (fun e => if e.1 = k then (k, v) else e)
  else
    m ++ [(k, v)]

/-- JavaScript `Map.delete`. -/
def eraseEntry {α : Type} (m : List (String × α)) (k : String) :
    List (String × α) :=
  m.filter (fun e => e.1 ≠ k)

/-- Number of entries of the table carrying key `k`. -/
def countKey {α : Type} (m : List (String × α)) (k : String) : Nat :=
  (m.filter (fun e => e.1 = k)).length

/-- The whole mutable state of one `useWebRTC` session instance: the
React states (`remoteParticipants`, `connectionState`), the refs
(`peersRef`, `remoteStreamsRef`, `remoteNamesRef`, `localStreamRef`,
`channelRef`, `localAudioEnabledRef`, `localVideoEnabledRef`), together
with the stores of allocated `RTCPeerConnection` objects and media
tracks (identity = index). -/
structure SessionState where
  clientId : String
  username : String
  pcs : List RTCPeerConnection
  peers : List (String × Nat)
  remoteStreams : List (String × Nat)
  remoteNames : List (String × String)
  participants : List RemoteParticipant
  connectionState : ConnState
  tracks : List MediaTrack
  localStream : Option (List Nat)
  channelOpen : Bool
  localAudioEnabled : Bool
  localVideoEnabled : Bool
deriving DecidableEq, Repr

/-- Source `createPeerConnection(peerId)`: allocates a fresh
`RTCPeerConnection` object and stores it in `peersRef` under `peerId`
(replacing any previous entry for that key, without closing the
previous object).  Returns the updated state and the new object's id. -/
def createPeerConnection (s : SessionState) (peerId : String) :
    SessionState × Nat :=
  let pcId := s.pcs.length
  ({ s with pcs := s.pcs ++ [newPc], peers := setEntry s.peers peerId pcId },
   pcId)

/-- Source `pc.setLocalDescription(...)` on the pc object with id `pcId`. -/
def setLocalDesc (s : SessionState) (pcId : Nat) : SessionState :=
  match s.pcs[pcId]? with
  | some pc => { s with pcs := s.pcs.set pcId ({ pc with localDescSet := true }) }
  | none => s

/-- Source `pc.setRemoteDescription(...)` on the pc object with id `pcId`. -/
def setRemoteDesc (s : SessionState) (pcId : Nat) : SessionState :=
  match s.pcs[pcId]? with
  | some pc => { s with pcs := s.pcs.set pcId ({ pc with remoteDescSet := true }) }
  | none => s

/-- Source `await pc.addIceCandidate(...)` wrapped in the source's
`try { ... } catch (e) { console.error(...) }`: per the WebRTC API the
add succeeds exactly when a remote description is set and the
connection is not closed; otherwise it rejects, the handler catches and
logs, and the candidate is dropped with no state change. -/
def tryAddIceCandidate (s : SessionState) (pcId : Nat) (c : Nat) :
    SessionState :=
  match s.pcs[pcId]? with
  | some pc =>
      if pc.remoteDescSet && !pc.closed then
        { s with pcs := s.pcs.set pcId ({ pc with applied := pc.applied ++ [c] }) }
      else s
  | none => s

/-- Source `pc.close()` on the pc object with id `pcId`. -/
def closePc (s : SessionState) (pcId : Nat) : SessionState :=
  match s.pcs[pcId]? with
  | some pc =>
      let pc2 := { pc with closed := true, connState := PcConnState.closed }
      { s with pcs := s.pcs.set pcId pc2 }
  | none => s

/-- The participant-list updater of the join and offer cases: add an
entry for `sender` unless one already exists. -/
def addParticipantIfAbsent (s : SessionState) (sender name : String) :
    SessionState :=
  if s.participants.any (fun p => p.peerId = sender) then s
  else
    { s with participants := s.participants ++
        [{ peerId := sender, username := name,
           stream := getEntry s.remoteStreams sender,
           audioEnabled := true, videoEnabled := true }] }

/-- The `handleMessage` dispatch handler installed on the room channel
by `startCall`, lines 126-216 of the hook.  Returns the post-state and
the list of messages posted to the channel, in order.  The initial
guard is the source's self-echo filter; each point-to-point case first
checks `msg.targetId !== clientId`; a message whose type is none of the
six `SignalMessage` variants matches no `switch` case and falls
through. -/
def handleMessage (s : SessionState) (m : WireMessage) :
    SessionState × List WireMessage :=
  if senderOf m = s.clientId then (s, [])
  else
    match m with
    | WireMessage.signal (SignalMessage.join sender name) =>
        let s1 := { s with remoteNames := setEntry s.remoteNames sender name }
        let s2 := addParticipantIfAbsent s1 sender name
        let (s3, pcId) := createPeerConnection s2 sender
        let s4 := setLocalDesc s3 pcId
        (s4,
         [WireMessage.signal (SignalMessage.offer s.clientId sender 0 s.username),
          WireMessage.signal (SignalMessage.state s.clientId
            s.localAudioEnabled s.localVideoEnabled)])
    | WireMessage.signal (SignalMessage.offer sender target _ name) =>
        if target ≠ s.clientId then (s, [])
        else
          let s1 := { s with remoteNames := setEntry s.remoteNames sender name }
          let s2 := addParticipantIfAbsent s1 sender name
          let (s3, pcId) := createPeerConnection s2 sender
          let s4 := setRemoteDesc s3 pcId
          let s5 := setLocalDesc s4 pcId
          (s5,
           [WireMessage.signal (SignalMessage.answer s.clientId sender 0),
            WireMessage.signal (SignalMessage.state s.clientId
              s.localAudioEnabled s.localVideoEnabled)])
    | WireMessage.signal (SignalMessage.answer sender target _) =>
        if target ≠ s.clientId then (s, [])
        else
          match getEntry s.peers sender with
          | some pcId => (setRemoteDesc s pcId, [])
          | none => (s, [])
    | WireMessage.signal (SignalMessage.iceCandidate sender target c) =>
        if target ≠ s.clientId then (s, [])
        else
          match getEntry s.peers sender with
          | some pcId => (tryAddIceCandidate s pcId c, [])
          | none => (s, [])
    | WireMessage.signal (SignalMessage.state sender a v) =>
        ({ s with participants := s.participants.map (fun p =>
            if p.peerId = sender then
              { p with audioEnabled := a, videoEnabled := v }
            else p) }, [])
    | WireMessage.signal (SignalMessage.leave sender) =>
        let s1 :=
          match getEntry s.peers sender with
          | some pcId => closePc s pcId
          | none => s
        ({ s1 with
            peers := eraseEntry s1.peers sender,
            remoteStreams := eraseEntry s1.remoteStreams sender,
            remoteNames := eraseEntry s1.remoteNames sender,
            participants := s1.participants.filter
              (fun p => p.peerId ≠ sender) }, [])
    | WireMessage.presenceRequest _ => (s, [])
    | WireMessage.presenceResponse _ => (s, [])
    | WireMessage.other _ _ => (s, [])

/-- The connection states of the pc objects currently held in
`peersRef` (`Array.from(peersRef.current.values()).map(p =>
p.connectionState)`). -/
def liveStates (s : SessionState) : List PcConnState :=
  (s.peers.filterMap (fun e => s.pcs[e.2]?)).map
    (fun pc => pc.connState)

/-- The aggregate state computed by the `onconnectionstatechange`
callback, lines 77-82 of the hook. -/
def computeAggregate (s : SessionState) : ConnState :=
  let states := liveStates s
  if states.any (fun st => st = PcConnState.connected) then
    ConnState.connected
  else if states.any (fun st =>
      st = PcConnState.connecting || st = PcConnState.new) then
    ConnState.connecting
  else ConnState.disconnected

/-- Modelled from the spec: the pure projection of the live
PeerConnections' states ("connected if any is connected; else
connecting if any is new/negotiating; else disconnected"), where the
spec's `negotiating` is the browser's `connecting`.  Declared
separately from `computeAggregate` so the code's recomputation can be
compared against the spec's projection. -/
def specAggregate (s : SessionState) : ConnState :=
  let states := liveStates s
  if states.any (fun st => st = PcConnState.connected) then
    ConnState.connected
  else if states.any (fun st =>
      st = PcConnState.new || st = PcConnState.connecting) then
    ConnState.connecting
  else ConnState.disconnected

/-- The browser changes pc `pcId`'s connection state to `st` and fires
its `onconnectionstatechange` callback, which recomputes the aggregate
from all table entries (lines 77-82). -/
def applyConnectionStateChange (s : SessionState) (pcId : Nat)
    (st : PcConnState) : SessionState :=
  match s.pcs[pcId]? with
  | some pc =>
      let s1 := { s with pcs := s.pcs.set pcId ({ pc with connState := st }) }
      { s1 with connectionState := computeAggregate s1 }
  | none => s

/-- The `ontrack` callback closed over `peerId` (lines 62-75): records
the remote stream and adds or updates that peer's participant entry,
looking up the display name in `remoteNamesRef` (defaulting to ""). -/
def applyTrackEvent (s : SessionState) (peerId : String) (streamId : Nat) :
    SessionState :=
  let s1 := { s with remoteStreams := setEntry s.remoteStreams peerId streamId }
  let name := (getEntry s1.remoteNames peerId).getD ""
  if s1.participants.any (fun p => p.peerId = peerId) then
    { s1 with participants := s1.participants.map (fun p =>
        if p.peerId = peerId then { p with stream := some streamId } else p) }
  else
    { s1 with participants := s1.participants ++
        [{ peerId := peerId, username := name, stream := some streamId,
           audioEnabled := true, videoEnabled := true }] }

/-- Apply `f` to the store slot at each index of `idxs`, in order
(a `forEach` over object references resolved in a store). -/
def setAll {α : Type} (store : List α) (f : α → α) (idxs : List Nat) :
    List α :=
  idxs.foldl (fun st i =>
    match st[i]? with
    | some x => st.set i (f x)
    | none => st) store

/-- What `pc.close()` does to the pc object. -/
def closeFn (pc : RTCPeerConnection) : RTCPeerConnection :=
  { pc with closed := true, connState := PcConnState.closed }

/-- What `track.stop()` does to the track object. -/
def stopFn (t : MediaTrack) : MediaTrack :=
  { t with stopped := true }

/-- Source `hangUp()` (lines 270-294): posts leave and closes the channel when
one is open; closes every pc in `peersRef` and clears the table; stops
every local track and drops the stream; resets the React states and
clears the stream and name maps.  Returns the post-state and the list
of posted messages. -/
def hangUp (s : SessionState) : SessionState × List WireMessage :=
  let out :=
    if s.channelOpen then [WireMessage.signal (SignalMessage.leave s.clientId)]
    else []
  let pcs1 := setAll s.pcs closeFn (s.peers.map (fun e => e.2))
  let tracks1 :=
    match s.localStream with
    | some ids => setAll s.tracks stopFn ids
    | none => s.tracks
  ({ s with
      channelOpen := false,
      pcs := pcs1,
      peers := [],
      tracks := tracks1,
      localStream := none,
      participants := [],
      connectionState := ConnState.disconnected,
      remoteStreams := [],
      remoteNames := [] }, out)

/-- Source `startCall()` up to its first suspension-free point (lines
118-124, 218-223): state→connecting, local stream acquired (one audio
and one video track), channel opened, then a join announcement and a
state broadcast posted.  Returns the session state right after and the
posted messages. -/
def startCall (clientId username : String) :
    SessionState × List WireMessage :=
  let tracks : List MediaTrack :=
    [{ audio := true, enabled := true, stopped := false },
     { audio := false, enabled := true, stopped := false }]
  ({ clientId := clientId, username := username,
     pcs := [], peers := [], remoteStreams := [], remoteNames := [],
     participants := [], connectionState := ConnState.connecting,
     tracks := tracks, localStream := some [0, 1],
     channelOpen := true,
     localAudioEnabled := true, localVideoEnabled := true },
   [WireMessage.signal (SignalMessage.join clientId username),
    WireMessage.signal (SignalMessage.state clientId true true)])

/-- Source `checkRoomPresence(room)` of the landing page (LandingPage.tsx
lines 21-52): posts a presence-request and resolves `true` exactly when
a presence-response message arrives on the room channel before the
800 ms timeout, `false` at the timeout otherwise.  `received` is the
list of messages delivered to the probe's channel before the timeout
fires. -/
def checkRoomPresence (received : List WireMessage) : Bool :=
  received.any isPresenceResponse

/-- One step of the session: an inbound channel message dispatched by
`handleMessage`, a browser connection-state-change event, a browser
track event, or a local `hangUp()`. -/
inductive Step : SessionState → SessionState → Prop
  | msg (s : SessionState) (m : WireMessage) :
      Step s (handleMessage s m).1
  | connEvent (s : SessionState) (pcId : Nat) (st : PcConnState) :
      Step s (applyConnectionStateChange s pcId st)
  | trackEvent (s : SessionState) (peerId : String) (streamId : Nat) :
      Step s (applyTrackEvent s peerId streamId)
  | hang (s : SessionState) :
      Step s (hangUp s).1

/-- The session state of client "me" (username "alice") right after
`startCall()`. -/
def initialSession : SessionState := (startCall "me" "alice").1

/-- Configurations reachable from the freshly started session. -/
def Reachable (s : SessionState) : Prop :=
  Relation.ReflTransGen Step initialSession s

/-- The example session of client "me" right after a peer "p" named
"bob" has joined: one PeerConnection allocated for "p" (id 0, local
offer set, remote description still unset). -/
def exampleAfterJoin : SessionState :=
  (handleMessage initialSession
    (WireMessage.signal (SignalMessage.join "p" "bob"))).1

/-! ### Helper lemmas about the JavaScript-Map model -/

theorem getEntry_map_set {α : Type} (m : List (String × α)) (k : String)
    (v : α) :
    getEntry (m.map (fun e => if e.1 = k then (k, v) else e)) k =
      if m.any (fun e => e.1 = k) then some v else none := by
  induction m with
  | nil => simp [getEntry]
  | cons e rest ih =>
    by_cases he : e.1 = k
    · simp [getEntry, List.find?_cons, he]
    · have hhd : (if e.1 = k then (k, v) else e) = e := if_neg he
      have hd : (decide (e.1 = k)) = false := decide_eq_false he
      simp only [List.map_cons, hhd, List.any_cons, getEntry,
        List.find?_cons, hd, Bool.false_or]
      exact ih

theorem getEntry_append_single {α : Type} (m : List (String × α))
    (k : String) (v : α) (h : m.any (fun e => e.1 = k) = false) :
    getEntry (m ++ [(k, v)]) k = some v := by
  have hfind : m.find? (fun e => decide (e.1 = k)) = none := by
    rw [List.find?_eq_none]
    intro x hx
    have := List.any_eq_false.mp h x hx
    simpa using this
  simp [getEntry, List.find?_append, hfind]

theorem getEntry_setEntry_self {α : Type} (m : List (String × α))
    (k : String) (v : α) : getEntry (setEntry m k v) k = some v := by
  unfold setEntry
  by_cases h : m.any (fun e => e.1 = k) = true
  · rw [if_pos h, getEntry_map_set, if_pos h]
  · rw [if_neg h, getEntry_append_single]
    exact Bool.eq_false_iff.mpr h

theorem getEntry_eraseEntry_self {α : Type} (m : List (String × α))
    (k : String) : getEntry (eraseEntry m k) k = none := by
  have hfind : (eraseEntry m k).find? (fun e => decide (e.1 = k)) = none := by
    rw [List.find?_eq_none]
    intro x hx
    have hmem := (List.mem_filter.mp hx).2
    simp only [decide_eq_true_eq] at hmem ⊢
    simpa using hmem
  simp [getEntry, hfind]

theorem countKey_map_set {α : Type} (m : List (String × α)) (k : String)
    (v : α) :
    countKey (m.map (fun e => if e.1 = k then (k, v) else e)) k =
      countKey m k := by
  induction m with
  | nil => rfl
  | cons e rest ih =>
    by_cases he : e.1 = k
    · simp [countKey, List.filter_cons, he] at ih ⊢
      exact ih
    · simp [countKey, List.filter_cons, he] at ih ⊢
      exact ih

theorem countKey_setEntry_of_mem {α : Type} (m : List (String × α))
    (k : String) (v : α) (h : m.any (fun e => e.1 = k) = true) :
    countKey (setEntry m k v) k = countKey m k := by
  unfold setEntry
  rw [if_pos h]
  exact countKey_map_set m k v

theorem any_eq_false_of_getEntry_none {α : Type} (m : List (String × α))
    (k : String) (h : getEntry m k = none) :
    m.any (fun e => e.1 = k) = false := by
  rw [List.any_eq_false]
  intro x hx
  unfold getEntry at h
  rw [Option.map_eq_none'] at h
  have := List.find?_eq_none.mp h x hx
  simpa using this

/-! ### Helper lemmas about the object stores -/

theorem setAll_nil {α : Type} (store : List α) (f : α → α) :
    setAll store f [] = store := rfl

theorem setAll_preserve {α : Type} (P : α → Prop) (f : α → α)
    (h1 : ∀ a, P (f a)) :
    ∀ (idxs : List Nat) (store : List α) (i : Nat),
      (∀ x, store[i]? = some x → P x) →
      ∀ x, (setAll store f idxs)[i]? = some x → P x := by
  intro idxs
  induction idxs with
  | nil => intro store i h x hx; exact h x hx
  | cons j rest ih =>
    intro store i h x hx
    cases hj : store[j]? with
    | none =>
        refine ih store i h x ?_
        simpa [setAll, List.foldl_cons, hj] using hx
    | some a =>
        refine ih (store.set j (f a)) i ?_ x ?_
        · intro y hy
          rw [List.getElem?_set] at hy
          by_cases hij : j = i
          · rw [if_pos hij] at hy
            by_cases hlt : j < store.length
            · rw [if_pos hlt] at hy
              cases hy
              exact h1 a
            · rw [if_neg hlt] at hy
              cases hy
          · rw [if_neg hij] at hy
            exact h y hy
        · simpa [setAll, List.foldl_cons, hj] using hx

theorem setAll_mem {α : Type} (P : α → Prop) (f : α → α)
    (h1 : ∀ a, P (f a)) :
    ∀ (idxs : List Nat) (store : List α) (i : Nat), i ∈ idxs →
      ∀ x, (setAll store f idxs)[i]? = some x → P x := by
  intro idxs
  induction idxs with
  | nil => intro store i hi; cases hi
  | cons j rest ih =>
    intro store i hi x hx
    by_cases hij : i = j
    · subst hij
      cases hj : store[i]? with
      | none =>
          cases hi2 : decide (i ∈ rest) with
          | true =>
              refine ih store i (of_decide_eq_true hi2) x ?_
              simpa [setAll, List.foldl_cons, hj] using hx
          | false =>
              -- slot i is empty and stays empty: contradiction path
              have hemp : ∀ y, store[i]? = some y → P y := by
                intro y hy; rw [hj] at hy; cases hy
              refine setAll_preserve P f h1 rest store i hemp x ?_
              simpa [setAll, List.foldl_cons, hj] using hx
      | some a =>
          have hset : ∀ y, (store.set i (f a))[i]? = some y → P y := by
            intro y hy
            rw [List.getElem?_set] at hy
            simp only [if_pos rfl] at hy
            by_cases hlt : i < store.length
            · rw [if_pos hlt] at hy
              cases hy
              exact h1 a
            · rw [if_neg hlt] at hy
              cases hy
          refine setAll_preserve P f h1 rest (store.set i (f a)) i hset x ?_
          simpa [setAll, List.foldl_cons, hj] using hx
    · have hi' : i ∈ rest := by
        cases hi with
        | head => exact absurd rfl hij
        | tail _ h => exact h
      cases hj : store[j]? with
      | none =>
          refine ih store i hi' x ?_
          simpa [setAll, List.foldl_cons, hj] using hx
      | some a =>
          refine ih (store.set j (f a)) i hi' x ?_
          simpa [setAll, List.foldl_cons, hj] using hx

/-! ### Runs of single handler cases -/

theorem any_of_countKey_one {α : Type} (m : List (String × α)) (k : String)
    (h : countKey m k = 1) : m.any (fun e => e.1 = k) = true := by
  by_contra hne
  have hf : m.any (fun e => e.1 = k) = false := Bool.eq_false_iff.mpr hne
  have hnil : m.filter (fun e => e.1 = k) = [] :=
    List.filter_eq_nil_iff.mpr (List.any_eq_false.mp hf)
  unfold countKey at h
  rw [hnil] at h
  simp at h

theorem any_connecting_new_comm (l : List PcConnState) :
    l.any (fun st =>
        st = PcConnState.connecting || st = PcConnState.new) =
      l.any (fun st =>
        st = PcConnState.new || st = PcConnState.connecting) := by
  induction l with
  | nil => rfl
  | cons x xs ih =>
    rw [List.any_cons, List.any_cons, ih]
    cases x <;> rfl

theorem closePc_clientId (s : SessionState) (pcId : Nat) :
    (closePc s pcId).clientId = s.clientId := by
  unfold closePc; split <;> rfl

theorem closePc_peers (s : SessionState) (pcId : Nat) :
    (closePc s pcId).peers = s.peers := by
  unfold closePc; split <;> rfl

theorem closePc_remoteStreams (s : SessionState) (pcId : Nat) :
    (closePc s pcId).remoteStreams = s.remoteStreams := by
  unfold closePc; split <;> rfl

theorem closePc_remoteNames (s : SessionState) (pcId : Nat) :
    (closePc s pcId).remoteNames = s.remoteNames := by
  unfold closePc; split <;> rfl

theorem closePc_participants (s : SessionState) (pcId : Nat) :
    (closePc s pcId).participants = s.participants := by
  unfold closePc; split <;> rfl

theorem closePc_pcs_length (s : SessionState) (pcId : Nat) :
    (closePc s pcId).pcs.length = s.pcs.length := by
  unfold closePc
  split
  · exact List.length_set s.pcs pcId _
  · rfl

theorem closePc_get (s : SessionState) (pcId : Nat)
    (pc : RTCPeerConnection) (hpc : s.pcs[pcId]? = some pc) :
    (closePc s pcId).pcs[pcId]? =
      some ({ pc with closed := true, connState := PcConnState.closed }) := by
  have hlt : pcId < s.pcs.length := (List.getElem?_eq_some.mp hpc).1
  unfold closePc
  rw [hpc]
  exact List.getElem?_set_eq_of_lt _ hlt

/-- The full effect of the join case for a non-self sender, as one
state equation. -/
theorem join_run (s : SessionState) (P name : String)
    (hP : P ≠ s.clientId) :
    handleMessage s (WireMessage.signal (SignalMessage.join P name)) =
      ({ s with
          remoteNames := setEntry s.remoteNames P name,
          participants :=
            if s.participants.any (fun p => p.peerId = P) then
              s.participants
            else
              s.participants ++ [{ peerId := P, username := name,
                                   stream := getEntry s.remoteStreams P,
                                   audioEnabled := true,
                                   videoEnabled := true }],
          pcs := (s.pcs ++ [newPc]).set s.pcs.length ({ newPc with localDescSet := true }),
          peers := setEntry s.peers P s.pcs.length },
       [WireMessage.signal (SignalMessage.offer s.clientId P 0 s.username),
        WireMessage.signal (SignalMessage.state s.clientId
          s.localAudioEnabled s.localVideoEnabled)]) := by
  have happ : (s.pcs ++ [newPc])[s.pcs.length]? = some newPc := by
    rw [List.getElem?_append_right (Nat.le_refl _)]
    simp
  by_cases hpart : s.participants.any (fun p => p.peerId = P) = true
  · simp [handleMessage, senderOf, hP, addParticipantIfAbsent,
      createPeerConnection, setLocalDesc, happ, hpart]
  · simp [handleMessage, senderOf, hP, addParticipantIfAbsent,
      createPeerConnection, setLocalDesc, happ, hpart]

/-- The full effect of the leave case for a non-self sender whose
PeerConnection exists, as one state equation. -/
theorem leave_run (s : SessionState) (P : String) (hP : P ≠ s.clientId)
    (pcId : Nat) (hpeer : getEntry s.peers P = some pcId) :
    handleMessage s (WireMessage.signal (SignalMessage.leave P)) =
      ({ closePc s pcId with
          peers := eraseEntry (closePc s pcId).peers P,
          remoteStreams := eraseEntry (closePc s pcId).remoteStreams P,
          remoteNames := eraseEntry (closePc s pcId).remoteNames P,
          participants := (closePc s pcId).participants.filter
            (fun p => p.peerId ≠ P) }, []) := by
  simp [handleMessage, senderOf, hP, hpeer]

/-! ### Claim theorems -/

/-- C5: For every inbound message whose senderId equals the local
ClientId, the dispatch handler performs no state mutation and sends no
message (complete no-op). -/
theorem claim_C5_self_message_noop (s : SessionState) (m : WireMessage)
    (h : senderOf m = s.clientId) : handleMessage s m = (s, []) := by
  unfold handleMessage
  rw [if_pos h]

theorem claim_C5_witness :
    senderOf (WireMessage.signal (SignalMessage.join "me" "x")) =
      initialSession.clientId ∧
    handleMessage initialSession
        (WireMessage.signal (SignalMessage.join "me" "x")) =
      (initialSession, []) :=
  ⟨by decide, claim_C5_self_message_noop initialSession
    (WireMessage.signal (SignalMessage.join "me" "x")) (by decide)⟩

/-- C6: For every inbound point-to-point message (offer, answer, or
ice-candidate) whose targetId differs from the local ClientId, the
dispatch handler produces no state change and sends no message. -/
theorem claim_C6_misdirected_noop (s : SessionState) (m : WireMessage)
    (t : String) (ht : targetOf m = some t) (hne : t ≠ s.clientId) :
    handleMessage s m = (s, []) := by
  cases m with
  | signal sm =>
    cases sm with
    | join sender name => simp [targetOf] at ht
    | leave sender => simp [targetOf] at ht
    | state sender a v => simp [targetOf] at ht
    | offer sender target sdp name =>
        simp only [targetOf, Option.some.injEq] at ht
        subst ht
        by_cases hs : sender = s.clientId
        · simp [handleMessage, senderOf, hs]
        · simp [handleMessage, senderOf, hs, hne]
    | answer sender target sdp =>
        simp only [targetOf, Option.some.injEq] at ht
        subst ht
        by_cases hs : sender = s.clientId
        · simp [handleMessage, senderOf, hs]
        · simp [handleMessage, senderOf, hs, hne]
    | iceCandidate sender target c =>
        simp only [targetOf, Option.some.injEq] at ht
        subst ht
        by_cases hs : sender = s.clientId
        · simp [handleMessage, senderOf, hs]
        · simp [handleMessage, senderOf, hs, hne]
  | presenceRequest p => simp [targetOf] at ht
  | presenceResponse p => simp [targetOf] at ht
  | other a b => simp [targetOf] at ht

theorem claim_C6_witness :
    targetOf (WireMessage.signal (SignalMessage.offer "p" "you" 0 "bob")) =
      some "you" ∧
    ("you" : String) ≠ initialSession.clientId ∧
    handleMessage initialSession
        (WireMessage.signal (SignalMessage.offer "p" "you" 0 "bob")) =
      (initialSession, []) :=
  ⟨by decide, by decide, claim_C6_misdirected_noop initialSession
    (WireMessage.signal (SignalMessage.offer "p" "you" 0 "bob")) "you"
    (by decide) (by decide)⟩

/-- C8: Processing an answer or ice-candidate message addressed to the
local client whose sender has no PeerConnection in the peer table is a
silent no-op: no state change, no message sent, and no error raised. -/
theorem claim_C8_stale_reference_noop (s : SessionState) (sender : String)
    (sdp c : Nat) (h : getEntry s.peers sender = none) :
    handleMessage s
        (WireMessage.signal (SignalMessage.answer sender s.clientId sdp)) =
      (s, []) ∧
    handleMessage s
        (WireMessage.signal (SignalMessage.iceCandidate sender s.clientId c)) =
      (s, []) := by
  constructor
  · by_cases hs : sender = s.clientId
    · simp [handleMessage, senderOf, hs]
    · simp [handleMessage, senderOf, hs, h]
  · by_cases hs : sender = s.clientId
    · simp [handleMessage, senderOf, hs]
    · simp [handleMessage, senderOf, hs, h]

theorem claim_C8_witness :
    getEntry initialSession.peers "ghost" = none ∧
    handleMessage initialSession
        (WireMessage.signal
          (SignalMessage.answer "ghost" initialSession.clientId 3)) =
      (initialSession, []) :=
  ⟨by decide, (claim_C8_stale_reference_noop initialSession "ghost" 3 4
    (by decide)).1⟩

/-- C3 counterexample: in the session where only peer "p" is known, a
state message from the unknown, non-self sender "q" leaves the whole
session unchanged (and sends nothing): no provisional participant entry
is created for "q", contrary to the claim. -/
theorem claim_C3_counterexample :
    handleMessage exampleAfterJoin
        (WireMessage.signal (SignalMessage.state "q" false false)) =
      (exampleAfterJoin, []) ∧
    ("q" : String) ≠ exampleAfterJoin.clientId ∧
    exampleAfterJoin.participants.all (fun p => p.peerId ≠ "q") = true := by
  refine ⟨by decide, by decide, by decide⟩

/-- C3 amended: processing state(sender, a, v) from a non-self sender
updates the remote audio/video flags of the sender's existing
participant entry and touches nothing else; when no entry for the
sender exists, the message is dropped entirely (no provisional entry is
created and the session is unchanged). -/
theorem claim_C3_state_flags_amended (s : SessionState) (sender : String)
    (a v : Bool) (hs : sender ≠ s.clientId) :
    (handleMessage s
      (WireMessage.signal (SignalMessage.state sender a v))).2 = [] ∧
    (handleMessage s
      (WireMessage.signal (SignalMessage.state sender a v))).1.peers =
        s.peers ∧
    (handleMessage s
      (WireMessage.signal (SignalMessage.state sender a v))).1.pcs =
        s.pcs ∧
    (∀ p ∈ s.participants, p.peerId = sender →
      ({ p with audioEnabled := a, videoEnabled := v } :
          RemoteParticipant) ∈
        (handleMessage s
          (WireMessage.signal (SignalMessage.state sender a v))).1.participants) ∧
    ((∀ p ∈ s.participants, p.peerId ≠ sender) →
      (handleMessage s
        (WireMessage.signal (SignalMessage.state sender a v))).1 = s) := by
  have hr : handleMessage s
      (WireMessage.signal (SignalMessage.state sender a v)) =
      ({ s with participants := s.participants.map (fun p =>
          if p.peerId = sender then
            { p with audioEnabled := a, videoEnabled := v }
          else p) }, []) := by
    simp [handleMessage, senderOf, hs]
  rw [hr]
  refine ⟨rfl, rfl, rfl, ?_, ?_⟩
  · intro p hp hpid
    have hmem := List.mem_map_of_mem (fun p : RemoteParticipant =>
      if p.peerId = sender then
        { p with audioEnabled := a, videoEnabled := v }
      else p) hp
    simpa [hpid] using hmem
  · intro hnone
    have hmap : s.participants.map (fun p =>
        if p.peerId = sender then
          { p with audioEnabled := a, videoEnabled := v }
        else p) = s.participants := by
      have hcongr := List.map_congr_left (l := s.participants)
        (f := fun p : RemoteParticipant =>
          if p.peerId = sender then
            { p with audioEnabled := a, videoEnabled := v }
          else p)
        (g := id) (fun p hp => if_neg (hnone p hp))
      rw [hcongr, List.map_id]
    rw [hmap]

theorem claim_C3_witness :
    ("p" : String) ≠ exampleAfterJoin.clientId ∧
    ({ peerId := "p", username := "bob", stream := none,
       audioEnabled := false, videoEnabled := true } : RemoteParticipant) ∈
      (handleMessage exampleAfterJoin
        (WireMessage.signal (SignalMessage.state "p" false true))).1.participants :=
  ⟨by decide,
   (claim_C3_state_flags_amended exampleAfterJoin "p" false true
      (by decide)).2.2.2.1
     { peerId := "p", username := "bob", stream := none,
       audioEnabled := true, videoEnabled := true }
     (by decide) (by decide)⟩

/-- C10: the dispatch handler is a complete no-op on any message whose
type is outside the six SignalMessage variants (in particular it never
answers a presence-request); every message the session ever posts is
one of the six SignalMessage variants; hence the pre-join probe
`checkRoomPresence`, which resolves true only on a presence-response,
resolves false at its timeout whenever the room's other occupants are
session handlers. -/
theorem claim_C10_no_presence_reply :
    (∀ (s : SessionState) (m : WireMessage), isSignal m = false →
      handleMessage s m = (s, [])) ∧
    (∀ (s : SessionState) (m : WireMessage) (x : WireMessage),
      x ∈ (handleMessage s m).2 → isSignal x = true) ∧
    (∀ (cid un : String) (x : WireMessage),
      x ∈ (startCall cid un).2 → isSignal x = true) ∧
    (∀ (s : SessionState) (x : WireMessage),
      x ∈ (hangUp s).2 → isSignal x = true) ∧
    (∀ received : List WireMessage,
      (∀ x ∈ received, isSignal x = true) →
        checkRoomPresence received = false) := by
  refine ⟨?_, ?_, ?_, ?_, ?_⟩
  · intro s m hm
    cases m with
    | signal sm => simp [isSignal] at hm
    | presenceRequest p => unfold handleMessage; split <;> rfl
    | presenceResponse p => unfold handleMessage; split <;> rfl
    | other a b => unfold handleMessage; split <;> rfl
  · intro s m x hx
    cases m with
    | signal sm =>
      cases sm with
      | join sender name =>
        by_cases hs : sender = s.clientId
        · simp [handleMessage, senderOf, hs] at hx
        · simp [handleMessage, senderOf, hs] at hx
          rcases hx with rfl | rfl <;> rfl
      | leave sender =>
        by_cases hs : sender = s.clientId
        · simp [handleMessage, senderOf, hs] at hx
        · simp [handleMessage, senderOf, hs] at hx
      | offer sender target sdp name =>
        by_cases hs : sender = s.clientId
        · simp [handleMessage, senderOf, hs] at hx
        · by_cases ht : target = s.clientId
          · simp [handleMessage, senderOf, hs, ht] at hx
            rcases hx with rfl | rfl <;> rfl
          · simp [handleMessage, senderOf, hs, ht] at hx
      | answer sender target sdp =>
        by_cases hs : sender = s.clientId
        · simp [handleMessage, senderOf, hs] at hx
        · by_cases ht : target = s.clientId
          · rcases hg : getEntry s.peers sender with _ | pcId <;>
              simp [handleMessage, senderOf, hs, ht, hg] at hx
          · simp [handleMessage, senderOf, hs, ht] at hx
      | iceCandidate sender target c =>
        by_cases hs : sender = s.clientId
        · simp [handleMessage, senderOf, hs] at hx
        · by_cases ht : target = s.clientId
          · rcases hg : getEntry s.peers sender with _ | pcId <;>
              simp [handleMessage, senderOf, hs, ht, hg] at hx
          · simp [handleMessage, senderOf, hs, ht] at hx
      | state sender a v =>
        by_cases hs : sender = s.clientId
        · simp [handleMessage, senderOf, hs] at hx
        · simp [handleMessage, senderOf, hs] at hx
    | presenceRequest p =>
        by_cases hs : p = s.clientId <;>
          simp [handleMessage, senderOf, hs] at hx
    | presenceResponse p =>
        by_cases hs : p = s.clientId <;>
          simp [handleMessage, senderOf, hs] at hx
    | other a b =>
        by_cases hs : b = s.clientId <;>
          simp [handleMessage, senderOf, hs] at hx
  · intro cid un x hx
    simp [startCall] at hx
    rcases hx with rfl | rfl <;> rfl
  · intro s x hx
    by_cases hc : s.channelOpen = true
    · simp [hangUp, hc] at hx
      subst hx
      rfl
    · simp [hangUp, hc] at hx
  · intro received hall
    show received.any isPresenceResponse = false
    rw [List.any_eq_false]
    intro x hx
    have hsig := hall x hx
    cases x with
    | signal sm => simp [isPresenceResponse]
    | presenceRequest p => simp [isPresenceResponse]
    | presenceResponse p => simp [isSignal] at hsig
    | other a b => simp [isPresenceResponse]

/-- C1 counterexample: in the session where peer "p"'s PeerConnection
(id 0) exists with no remote description yet, candidate 7 addressed to
the local client arrives before "p"'s answer.  The dispatch leaves the
session completely unchanged — nothing is stored in any buffer — and
after the answer is then processed the remote description is set but
the applied-candidate list is still empty: the early candidate was
dropped, not applied exactly once after the remote description was
set. -/
theorem claim_C1_counterexample :
    (exampleAfterJoin.pcs[0]?).map (fun pc => pc.remoteDescSet) =
      some false ∧
    handleMessage exampleAfterJoin
        (WireMessage.signal (SignalMessage.iceCandidate "p" "me" 7)) =
      (exampleAfterJoin, []) ∧
    (((handleMessage
        (handleMessage exampleAfterJoin
          (WireMessage.signal (SignalMessage.iceCandidate "p" "me" 7))).1
        (WireMessage.signal (SignalMessage.answer "p" "me" 5))).1.pcs[0]?).map
      (fun pc => (pc.remoteDescSet, pc.applied))) = some (true, []) := by
  refine ⟨by decide, by decide, by decide⟩

/-- C1 amended: there is no candidate buffer.  An ice-candidate
addressed to the local client whose sender has a PeerConnection is
attempted immediately on arrival: it is applied (appended to that
connection's applied list) exactly when the remote description is
already set and the connection is not closed; otherwise the rejected
add is caught, logged and the candidate dropped with no state change.
A subsequent answer sets only the remote description and applies no
candidates. -/
theorem claim_C1_no_buffer_amended (s : SessionState) (sender : String)
    (c sdp : Nat) (pcId : Nat) (pc : RTCPeerConnection)
    (hs : sender ≠ s.clientId)
    (hpeer : getEntry s.peers sender = some pcId)
    (hpc : s.pcs[pcId]? = some pc) :
    (pc.remoteDescSet = true → pc.closed = false →
      handleMessage s
          (WireMessage.signal
            (SignalMessage.iceCandidate sender s.clientId c)) =
        ({ s with pcs := s.pcs.set pcId ({ pc with applied := pc.applied ++ [c] }) }, [])) ∧
    (pc.remoteDescSet = false ∨ pc.closed = true →
      handleMessage s
          (WireMessage.signal
            (SignalMessage.iceCandidate sender s.clientId c)) =
        (s, [])) ∧
    handleMessage s
        (WireMessage.signal (SignalMessage.answer sender s.clientId sdp)) =
      ({ s with pcs := s.pcs.set pcId ({ pc with remoteDescSet := true }) }, []) := by
  refine ⟨?_, ?_, ?_⟩
  · intro hrd hcl
    simp [handleMessage, senderOf, hs, hpeer, tryAddIceCandidate, hpc,
      hrd, hcl]
  · intro hor
    rcases hor with h | h
    · simp [handleMessage, senderOf, hs, hpeer, tryAddIceCandidate, hpc, h]
    · simp [handleMessage, senderOf, hs, hpeer, tryAddIceCandidate, hpc, h]
  · simp [handleMessage, senderOf, hs, hpeer, setRemoteDesc, hpc]

theorem claim_C1_witness :
    getEntry exampleAfterJoin.peers "p" = some 0 ∧
    handleMessage exampleAfterJoin
        (WireMessage.signal (SignalMessage.iceCandidate "p" "me" 7)) =
      (exampleAfterJoin, []) :=
  ⟨by decide,
   (claim_C1_no_buffer_amended exampleAfterJoin "p" 7 5 0
      { localDescSet := true, remoteDescSet := false, applied := [],
        closed := false, connState := PcConnState.new }
      (by decide) (by decide) (by decide)).2.1 (Or.inl rfl)⟩

/-- C2 counterexample: in the session where "p" is already known (one
PeerConnection object allocated, id 0), a duplicate join for "p"
allocates a second connection object — the pc store grows from one to
two objects — and rebinds the table to the new object (id 1), leaving
the first object orphaned and not closed.  This refutes "no second
connection object has been created". -/
theorem claim_C2_counterexample :
    exampleAfterJoin.peers = [("p", 0)] ∧
    exampleAfterJoin.pcs.length = 1 ∧
    (handleMessage exampleAfterJoin
        (WireMessage.signal (SignalMessage.join "p" "bob"))).1.pcs.length = 2 ∧
    (handleMessage exampleAfterJoin
        (WireMessage.signal (SignalMessage.join "p" "bob"))).1.peers =
      [("p", 1)] ∧
    ((handleMessage exampleAfterJoin
        (WireMessage.signal (SignalMessage.join "p" "bob"))).1.pcs[0]?).map
      (fun pc => pc.closed) = some false := by
  refine ⟨by decide, by decide, by decide, by decide, by decide⟩

/-- C2 amended: processing a duplicate join for a known peer P keeps
exactly one peer-table entry for P, but is not idempotent on connection
objects: it allocates a fresh PeerConnection (the store grows by one)
and rebinds P's table entry to it, leaving every previously allocated
object untouched (the replaced one is not closed), and it re-sends a
new offer followed by the current state. -/
theorem claim_C2_dup_join_amended (s : SessionState) (P name : String)
    (hP : P ≠ s.clientId) (hcount : countKey s.peers P = 1) :
    countKey (handleMessage s
        (WireMessage.signal (SignalMessage.join P name))).1.peers P = 1 ∧
    getEntry (handleMessage s
        (WireMessage.signal (SignalMessage.join P name))).1.peers P =
      some s.pcs.length ∧
    (handleMessage s
        (WireMessage.signal (SignalMessage.join P name))).1.pcs.length =
      s.pcs.length + 1 ∧
    (∀ i, i < s.pcs.length →
      (handleMessage s
        (WireMessage.signal (SignalMessage.join P name))).1.pcs[i]? =
        s.pcs[i]?) ∧
    (handleMessage s (WireMessage.signal (SignalMessage.join P name))).2 =
      [WireMessage.signal (SignalMessage.offer s.clientId P 0 s.username),
       WireMessage.signal (SignalMessage.state s.clientId
         s.localAudioEnabled s.localVideoEnabled)] := by
  have hany := any_of_countKey_one s.peers P hcount
  rw [join_run s P name hP]
  refine ⟨?_, ?_, ?_, ?_, rfl⟩
  · show countKey (setEntry s.peers P s.pcs.length) P = 1
    rw [countKey_setEntry_of_mem s.peers P s.pcs.length hany, hcount]
  · exact getEntry_setEntry_self s.peers P s.pcs.length
  · show ((s.pcs ++ [newPc]).set s.pcs.length _).length = s.pcs.length + 1
    rw [List.length_set, List.length_append]
    rfl
  · intro i hi
    show ((s.pcs ++ [newPc]).set s.pcs.length _)[i]? = s.pcs[i]?
    rw [List.getElem?_set_ne (Nat.ne_of_gt hi), List.getElem?_append]
    rw [if_pos hi]

theorem claim_C2_witness :
    ("p" : String) ≠ exampleAfterJoin.clientId ∧
    countKey exampleAfterJoin.peers "p" = 1 ∧
    countKey (handleMessage exampleAfterJoin
        (WireMessage.signal (SignalMessage.join "p" "bob"))).1.peers "p" = 1 ∧
    (handleMessage exampleAfterJoin
        (WireMessage.signal (SignalMessage.join "p" "bob"))).1.pcs.length =
      exampleAfterJoin.pcs.length + 1 :=
  ⟨by decide, by decide,
   (claim_C2_dup_join_amended exampleAfterJoin "p" "bob"
      (by decide) (by decide)).1,
   (claim_C2_dup_join_amended exampleAfterJoin "p" "bob"
      (by decide) (by decide)).2.2.1⟩

/-- C4 counterexample: the freshly started session (empty peer table)
is reachable, its stored connectionState is `connecting` (set by
`startCall`), but the pure projection over the (empty) peer table is
`disconnected`: the stored aggregate does not equal the projection in
every reachable configuration. -/
theorem claim_C4_counterexample :
    Reachable initialSession ∧
    initialSession.peers = [] ∧
    initialSession.connectionState = ConnState.connecting ∧
    specAggregate initialSession = ConnState.disconnected ∧
    initialSession.connectionState ≠ specAggregate initialSession :=
  ⟨Relation.ReflTransGen.refl, by decide, by decide, by decide, by decide⟩

/-- C4 amended: the recomputation performed by every
`onconnectionstatechange` callback equals the spec's pure projection
(connected if any live pc is connected, else connecting if any is
new/negotiating, else disconnected), so the equality holds immediately
after any connection-state-change event fires; but `connectionState` is
stored state, only written by those callbacks (and by start/hang-up),
so in other reachable configurations — in particular the empty peer
table right after start — it can differ from the projection. -/
theorem claim_C4_aggregate_amended :
    (∀ s : SessionState, computeAggregate s = specAggregate s) ∧
    (∀ (s : SessionState) (pcId : Nat) (st : PcConnState),
      pcId < s.pcs.length →
        (applyConnectionStateChange s pcId st).connectionState =
          specAggregate (applyConnectionStateChange s pcId st)) := by
  have hagg : ∀ s : SessionState, computeAggregate s = specAggregate s := by
    intro s
    simp only [computeAggregate, specAggregate]
    rw [any_connecting_new_comm]
  refine ⟨hagg, ?_⟩
  intro s pcId st hlt
  obtain ⟨pc, hpc⟩ : ∃ pc, s.pcs[pcId]? = some pc :=
    ⟨s.pcs[pcId], List.getElem?_eq_getElem hlt⟩
  simp only [applyConnectionStateChange, hpc]
  exact hagg _

theorem claim_C4_witness :
    0 < exampleAfterJoin.pcs.length ∧
    (applyConnectionStateChange exampleAfterJoin 0
        PcConnState.connected).connectionState =
      specAggregate (applyConnectionStateChange exampleAfterJoin 0
        PcConnState.connected) :=
  ⟨by decide, claim_C4_aggregate_amended.2 exampleAfterJoin 0
    PcConnState.connected (by decide)⟩

/-- C7: hangUp() publishes a leave message, closes every PeerConnection
of the peer table, stops every local media track, closes the signaling
channel, and empties the peer table and participant list (and the
stream and name maps); a second hangUp() is error-free and leaves the
already-reset state unchanged (and publishes nothing). -/
theorem claim_C7_hangup (s : SessionState) (h : s.channelOpen = true) :
    (hangUp s).2 = [WireMessage.signal (SignalMessage.leave s.clientId)] ∧
    (∀ e ∈ s.peers, ∀ pc : RTCPeerConnection,
      (hangUp s).1.pcs[e.2]? = some pc → pc.closed = true) ∧
    (∀ ids, s.localStream = some ids → ∀ i ∈ ids, ∀ t : MediaTrack,
      (hangUp s).1.tracks[i]? = some t → t.stopped = true) ∧
    (hangUp s).1.peers = [] ∧
    (hangUp s).1.participants = [] ∧
    (hangUp s).1.remoteStreams = [] ∧
    (hangUp s).1.remoteNames = [] ∧
    (hangUp s).1.localStream = none ∧
    (hangUp s).1.channelOpen = false ∧
    (hangUp s).1.connectionState = ConnState.disconnected ∧
    hangUp (hangUp s).1 = ((hangUp s).1, []) := by
  refine ⟨by simp [hangUp, h], ?_, ?_, rfl, rfl, rfl, rfl, rfl, rfl, rfl, ?_⟩
  · intro e he pc hpc
    have hmem : e.2 ∈ s.peers.map (fun e => e.2) :=
      List.mem_map_of_mem (fun e => e.2) he
    have hpcs : (hangUp s).1.pcs =
        setAll s.pcs closeFn (s.peers.map (fun e => e.2)) := rfl
    rw [hpcs] at hpc
    exact setAll_mem (fun pc : RTCPeerConnection => pc.closed = true)
      closeFn (fun a => rfl) (s.peers.map (fun e => e.2)) s.pcs e.2 hmem
      pc hpc
  · intro ids hids i hi t ht
    have htr : (hangUp s).1.tracks = setAll s.tracks stopFn ids := by
      simp [hangUp, hids]
    rw [htr] at ht
    exact setAll_mem (fun t : MediaTrack => t.stopped = true) stopFn
      (fun a => rfl) ids s.tracks i hi t ht
  · rfl

theorem claim_C7_witness :
    exampleAfterJoin.channelOpen = true ∧
    (hangUp exampleAfterJoin).2 =
      [WireMessage.signal (SignalMessage.leave "me")] ∧
    hangUp (hangUp exampleAfterJoin).1 = ((hangUp exampleAfterJoin).1, []) :=
  ⟨by decide,
   (claim_C7_hangup exampleAfterJoin (by decide)).1,
   (claim_C7_hangup exampleAfterJoin
      (by decide)).2.2.2.2.2.2.2.2.2.2⟩

/-- C9: after processing leave(P), no trace of P remains in the peer
table, the remote stream map, the remote name map or the participant
list, and P's PeerConnection object has been closed; a later join(P)
allocates an independent, fresh PeerConnection object (a brand-new
store id, in its initial state with only the local offer applied) for
P. -/
theorem claim_C9_leave_then_rejoin (s : SessionState) (P name : String)
    (hP : P ≠ s.clientId) (pcId : Nat)
    (hpeer : getEntry s.peers P = some pcId)
    (pc : RTCPeerConnection) (hpc : s.pcs[pcId]? = some pc) :
    getEntry (handleMessage s
        (WireMessage.signal (SignalMessage.leave P))).1.peers P = none ∧
    getEntry (handleMessage s
        (WireMessage.signal (SignalMessage.leave P))).1.remoteStreams P =
      none ∧
    getEntry (handleMessage s
        (WireMessage.signal (SignalMessage.leave P))).1.remoteNames P =
      none ∧
    (∀ p ∈ (handleMessage s
        (WireMessage.signal (SignalMessage.leave P))).1.participants,
      p.peerId ≠ P) ∧
    (handleMessage s
        (WireMessage.signal (SignalMessage.leave P))).1.pcs[pcId]? =
      some ({ pc with closed := true, connState := PcConnState.closed }) ∧
    (handleMessage s
        (WireMessage.signal (SignalMessage.leave P))).1.pcs.length =
      s.pcs.length ∧
    pcId < s.pcs.length ∧
    getEntry (handleMessage
        (handleMessage s
          (WireMessage.signal (SignalMessage.leave P))).1
        (WireMessage.signal (SignalMessage.join P name))).1.peers P =
      some s.pcs.length ∧
    (handleMessage
        (handleMessage s
          (WireMessage.signal (SignalMessage.leave P))).1
        (WireMessage.signal (SignalMessage.join P name))).1.pcs[s.pcs.length]? =
      some ({ newPc with localDescSet := true }) := by
  have hlt : pcId < s.pcs.length := (List.getElem?_eq_some.mp hpc).1
  have h1peers : (handleMessage s
      (WireMessage.signal (SignalMessage.leave P))).1.peers =
      eraseEntry s.peers P := by
    rw [leave_run s P hP pcId hpeer]
    show eraseEntry (closePc s pcId).peers P = _
    rw [closePc_peers]
  have h1streams : (handleMessage s
      (WireMessage.signal (SignalMessage.leave P))).1.remoteStreams =
      eraseEntry s.remoteStreams P := by
    rw [leave_run s P hP pcId hpeer]
    show eraseEntry (closePc s pcId).remoteStreams P = _
    rw [closePc_remoteStreams]
  have h1names : (handleMessage s
      (WireMessage.signal (SignalMessage.leave P))).1.remoteNames =
      eraseEntry s.remoteNames P := by
    rw [leave_run s P hP pcId hpeer]
    show eraseEntry (closePc s pcId).remoteNames P = _
    rw [closePc_remoteNames]
  have h1parts : (handleMessage s
      (WireMessage.signal (SignalMessage.leave P))).1.participants =
      s.participants.filter (fun p => p.peerId ≠ P) := by
    rw [leave_run s P hP pcId hpeer]
    show (closePc s pcId).participants.filter (fun p => p.peerId ≠ P) = _
    rw [closePc_participants]
  have h1pcs : (handleMessage s
      (WireMessage.signal (SignalMessage.leave P))).1.pcs =
      (closePc s pcId).pcs := by
    rw [leave_run s P hP pcId hpeer]
  have h1len : (handleMessage s
      (WireMessage.signal (SignalMessage.leave P))).1.pcs.length =
      s.pcs.length := by
    rw [h1pcs]
    exact closePc_pcs_length s pcId
  have h1client : (handleMessage s
      (WireMessage.signal (SignalMessage.leave P))).1.clientId =
      s.clientId := by
    rw [leave_run s P hP pcId hpeer]
    show (closePc s pcId).clientId = _
    rw [closePc_clientId]
  have hPs1 : P ≠ (handleMessage s
      (WireMessage.signal (SignalMessage.leave P))).1.clientId := by
    rw [h1client]; exact hP
  refine ⟨?_, ?_, ?_, ?_, ?_, h1len, hlt, ?_, ?_⟩
  · rw [h1peers]; exact getEntry_eraseEntry_self _ P
  · rw [h1streams]; exact getEntry_eraseEntry_self _ P
  · rw [h1names]; exact getEntry_eraseEntry_self _ P
  · intro p hp
    rw [h1parts] at hp
    have := (List.mem_filter.mp hp).2
    simpa using this
  · rw [h1pcs]
    exact closePc_get s pcId pc hpc
  · rw [join_run _ P name hPs1]
    show getEntry (setEntry (handleMessage s
      (WireMessage.signal (SignalMessage.leave P))).1.peers P
      (handleMessage s
        (WireMessage.signal (SignalMessage.leave P))).1.pcs.length) P =
      some s.pcs.length
    rw [getEntry_setEntry_self, h1len]
  · rw [join_run _ P name hPs1]
    show (((handleMessage s
        (WireMessage.signal (SignalMessage.leave P))).1.pcs ++ [newPc]).set
      (handleMessage s
        (WireMessage.signal (SignalMessage.leave P))).1.pcs.length
      ({ newPc with localDescSet := true }))[s.pcs.length]? = _
    rw [h1len]
    have hlen2 : s.pcs.length < ((handleMessage s
        (WireMessage.signal (SignalMessage.leave P))).1.pcs ++
        [newPc]).length := by
      rw [List.length_append, h1len]
      simp
    exact List.getElem?_set_eq_of_lt _ hlen2

theorem claim_C9_witness :
    getEntry exampleAfterJoin.peers "p" = some 0 ∧
    getEntry (handleMessage exampleAfterJoin
        (WireMessage.signal (SignalMessage.leave "p"))).1.peers "p" = none ∧
    (handleMessage
        (handleMessage exampleAfterJoin
          (WireMessage.signal (SignalMessage.leave "p"))).1
        (WireMessage.signal (SignalMessage.join "p" "bob"))).1.pcs[1]? =
      some ({ newPc with localDescSet := true }) :=
  ⟨by decide,
   (claim_C9_leave_then_rejoin exampleAfterJoin "p" "bob" (by decide) 0
      (by decide)
      { localDescSet := true, remoteDescSet := false, applied := [],
        closed := false, connState := PcConnState.new }
      (by decide)).1,
   (claim_C9_leave_then_rejoin exampleAfterJoin "p" "bob" (by decide) 0
      (by decide)
      { localDescSet := true, remoteDescSet := false, applied := [],
        closed := false, connState := PcConnState.new }
      (by decide)).2.2.2.2.2.2.2.2⟩

theorem claim_C10_witness :
    handleMessage initialSession (WireMessage.presenceRequest "landing") =
      (initialSession, []) ∧
    checkRoomPresence (startCall "me" "alice").2 = false :=
  ⟨claim_C10_no_presence_reply.1 initialSession
      (WireMessage.presenceRequest "landing") (by decide),
   claim_C10_no_presence_reply.2.2.2.2 (startCall "me" "alice").2
     (fun x hx => claim_C10_no_presence_reply.2.2.1 "me" "alice" x hx)⟩

end ForzaMeet
